import Mathlib

/-!
Verification development for the Kanji stroke-order viewer repository.

The definitions below are a shallow embedding of the JavaScript source:
  * src/unnamed/part_000 — the detail modal (extractStrokes, playAnimation,
    stopAnimation, pushExample) and the admin page (toCodepointHex,
    normalizeKanjiItem).
  * src/src/App.jsx — normalizeInfo and sanitizeKanjivgSvg.

JavaScript dynamic values are modelled by the inductive type JSValue.
-/

namespace Kanji

/-- Model of a JavaScript value, as far as the embedded functions inspect
one: undefined, null, booleans, numbers (modelled as integers; none of the
embedded code paths distinguish floats), strings, arrays and plain objects
(association lists; JS objects cannot hold duplicate keys, lookup takes the
first binding). -/
inductive JSValue where
  | undefined : JSValue
  | null : JSValue
  | bool : Bool → JSValue
  | num : Int → JSValue
  | str : String → JSValue
  | arr : List JSValue → JSValue
  | obj : List (String × JSValue) → JSValue

/-- JS nullish-coalescing operator a ?? b. -/
def jsOrElse (v d : JSValue) : JSValue :=
  match v with
  | .undefined => d
  | .null => d
  | _ => v

/-- Whether a value is null or undefined (the nullish values). -/
def isNullish (v : JSValue) : Bool :=
  match v with
  | .undefined => true
  | .null => true
  | _ => false

/-- JS truthiness. (The Int model has no NaN; no embedded code path
produces one.) -/
def jsTruthy (v : JSValue) : Bool :=
  match v with
  | .undefined => false
  | .null => false
  | .bool b => b
  | .num n => n != 0
  | .str s => s ≠ ""
  | .arr _ => true
  | .obj _ => true

/-- Property read v.k (also the semantics of v?.k for the nullish cases):
absent keys and non-object receivers give undefined. Reading a property off
null/undefined throws in JS; the embedded code only reads properties after
?? or ?., so that case is unreachable in the functions modelled here. -/
def getField (v : JSValue) (k : String) : JSValue :=
  match v with
  | .obj fs => (fs.lookup k).getD .undefined
  | _ => .undefined

/-- JS `k in v` property-existence test (used by normalizeInfo). -/
def hasField (v : JSValue) (k : String) : Bool :=
  match v with
  | .obj fs => fs.any (fun f => f.1 == k)
  | _ => false

mutual

/-- JS v.toString() / String(v) — for objects "[object Object]", for arrays
Array.prototype.join with "," where null/undefined elements print empty. -/
def jsToString : JSValue → String
  | .undefined => "undefined"
  | .null => "null"
  | .bool true => "true"
  | .bool false => "false"
  | .num n => toString n
  | .str s => s
  | .arr xs => jsToStringList xs
  | .obj _ => "[object Object]"

/-- Array.prototype.join "," over the elements. -/
def jsToStringList : List JSValue → String
  | [] => ""
  | x :: rest =>
    let hd :=
      match x with
      | .undefined => ""
      | .null => ""
      | v => jsToString v
    match rest with
    | [] => hd
    | _ => hd ++ "," ++ jsToStringList rest

end

/-! ## Admin-page normalizer (src/unnamed/part_000, lines 444–494) -/

/-- One lowercase hex digit, as produced by Number.prototype.toString(16). -/
def hexDigitChar (n : Nat) : Char :=
  if n < 10 then Char.ofNat (48 + n) else Char.ofNat (87 + n)

/-- Digits of n in base 16, most significant first, accumulated into acc.
Fuel-based so that the definition is structural (the fuel n+1 always
suffices, since n/16 strictly decreases). -/
def natToHexCore : Nat → Nat → List Char → List Char
  | 0, _, acc => acc
  | fuel + 1, n, acc =>
    if n < 16 then hexDigitChar n :: acc
    else natToHexCore fuel (n / 16) (hexDigitChar (n % 16) :: acc)

/-- JS cp.toString(16) for a non-negative integer code point. -/
def natToHex (n : Nat) : String :=
  String.mk (natToHexCore (n + 1) n [])

/-- ASCII branch of String.prototype.toLowerCase. The embedded code only
compares lowered strings against ASCII literals ("#bcc9e2", hex digits);
on those comparisons the ASCII mapping agrees with the full Unicode one,
because the only characters whose Unicode simple lowercase lands in the
ASCII range are the ASCII uppercase letters themselves. -/
def asciiLowerChar (c : Char) : Char :=
  if 'A' ≤ c ∧ c ≤ 'Z' then Char.ofNat (c.toNat + 32) else c

/-- String.prototype.toLowerCase (ASCII fragment, see asciiLowerChar). -/
def asciiLowerStr (s : String) : String :=
  String.mk (s.data.map asciiLowerChar)

/-- String.prototype.padStart(5, "0"): left-pad with zeros up to 5
characters; longer strings are returned unchanged, never truncated. -/
def padStart5 (s : String) : String :=
  String.mk (List.replicate (5 - s.length) '0') ++ s

/-- part_000 lines 451–457: toCodepointHex(ch) — empty string for empty
input, else the first code point (codePointAt(0)) in lowercase hex, padded
to 5 digits. -/
def toCodepointHex (ch : String) : String :=
  match ch.data with
  | [] => ""
  | c :: _ => padStart5 (asciiLowerStr (natToHex c.toNat))

/-- Canonical example record { tu, hiragana, nghia } (all strings after
normalization). -/
structure ExampleV where
  tu : String
  hiragana : String
  nghia : String
deriving DecidableEq

/-- Canonical reading { am, nghia, viDu } as produced by normReading. -/
structure Reading where
  am : String
  nghia : String
  viDu : List ExampleV
deriving DecidableEq

/-- Canonical svg locator. codepoint_hex is stored as the raw JS value
(the source keeps whatever svg.codepoint_hex held when it was present and
non-nullish, which need not be a string). -/
structure SvgInfo where
  codepoint_hex : JSValue
  path : String
  svgExists : Bool

/-- Canonical Entry, the output shape of normalizeKanjiItem. -/
structure Entry where
  chu : String
  hanViet : String
  nghia : String
  on' : List Reading
  kun : List Reading
  bo : String
  svg : SvgInfo
  updatedAt : String

/-- JS strict equality test v === false: true only for the boolean false
value itself. -/
def jsStrictEqFalse (v : JSValue) : Bool :=
  match v with
  | .bool false => true
  | _ => false

/-- Inner lambda of normReading's viDu mapping: one example object is
coerced to { tu, hiragana, nghia } strings via (ex?.f ?? "").toString(). -/
def normExample (ex : JSValue) : ExampleV :=
  { tu := jsToString (jsOrElse (getField ex "tu") (.str ""))
  , hiragana := jsToString (jsOrElse (getField ex "hiragana") (.str ""))
  , nghia := jsToString (jsOrElse (getField ex "nghia") (.str "")) }

/-- part_000 lines 465–478: normReading(r). -/
def normReading (r : JSValue) : Reading :=
  let rr := jsOrElse r (.obj [])
  { am := jsToString (jsOrElse (getField rr "am") (.str ""))
  , nghia := jsToString (jsOrElse (getField rr "nghia") (.str ""))
  , viDu :=
      match getField rr "viDu" with
      | .arr xs => xs.map normExample
      | _ => [] }

/-- part_000 lines 459–494: normalizeKanjiItem(raw). The wall-clock
timestamp nowIso() is passed in as the parameter now. -/
def normalizeKanjiItem (raw : JSValue) (now : String) : Entry :=
  let item := jsOrElse raw (.obj [])
  let chu := jsToString (jsOrElse (getField item "chu") (.str ""))
  let svg := jsOrElse (getField item "svg") (.obj [])
  let hex := jsOrElse (getField svg "codepoint_hex")
    (.str (if chu ≠ "" then toCodepointHex chu else ""))
  { chu := chu
  , hanViet := jsToString (jsOrElse (getField item "hanViet") (.str ""))
  , nghia := jsToString (jsOrElse (getField item "nghia") (.str ""))
  , on' :=
      match getField item "on" with
      | .arr xs => xs.map normReading
      | _ => []
  , kun :=
      match getField item "kun" with
      | .arr xs => xs.map normReading
      | _ => []
  , bo :=
      match getField item "bo" with
      | .undefined => ""
      | .null => ""
      | v => jsToString v
  , svg :=
      { codepoint_hex := hex
      , path := jsToString (jsOrElse (getField svg "path")
          (.str (if jsTruthy hex then
                   "resources/kanji_svg/" ++ jsToString hex ++ ".svg"
                 else "")))
      , svgExists := if jsStrictEqFalse (getField svg "exists") then false else true }
  , updatedAt := jsToString (jsOrElse (getField item "updatedAt") (.str now)) }

/-- The JS object corresponding to a canonical ExampleV. -/
def exampleToJS (e : ExampleV) : JSValue :=
  .obj [("tu", .str e.tu), ("hiragana", .str e.hiragana), ("nghia", .str e.nghia)]

/-- The JS object corresponding to a canonical Reading. -/
def readingToJS (r : Reading) : JSValue :=
  .obj [("am", .str r.am), ("nghia", .str r.nghia),
        ("viDu", .arr (r.viDu.map exampleToJS))]

/-- The JS object corresponding to a canonical Entry (the value the admin
page holds in its items array and feeds back into normalizeKanjiItem on
commit). -/
def entryToJS (e : Entry) : JSValue :=
  .obj [("chu", .str e.chu), ("hanViet", .str e.hanViet),
        ("nghia", .str e.nghia),
        ("on", .arr (e.on'.map readingToJS)),
        ("kun", .arr (e.kun.map readingToJS)),
        ("bo", .str e.bo),
        ("svg", .obj [("codepoint_hex", e.svg.codepoint_hex),
                      ("path", .str e.svg.path),
                      ("exists", .bool e.svg.svgExists)]),
        ("updatedAt", .str e.updatedAt)]

/-! ## Stroke extractor (src/unnamed/part_000, lines 19–31) -/

/-- One path element of the svg document: getAttribute("stroke") and
getAttribute("d") each give null (none) when absent, else the attribute
string. -/
structure SvgPath where
  stroke : Option String
  d : Option String
deriving DecidableEq

/-- The filter predicate of extractStrokes: drop guide lines whose lowered
stroke color is "#bcc9e2", keep the rest only when Boolean(d) holds (d
present and non-empty). -/
def isStrokePath (p : SvgPath) : Bool :=
  let strokeAttr := asciiLowerStr (p.stroke.getD "")
  if strokeAttr = "#bcc9e2" then false
  else
    match p.d with
    | none => false
    | some s => s ≠ ""

/-- part_000 lines 19–31: extractStrokes(svgEl); a null svgEl gives [],
else the path elements in document order filtered by isStrokePath. -/
def extractStrokes (svgEl : Option (List SvgPath)) : List SvgPath :=
  match svgEl with
  | none => []
  | some paths => paths.filter isStrokePath

/-! ## Stroke animator (src/unnamed/part_000, lines 171–217)

The async playAnimation loop is embedded as a big-step function. The only
suspension points are the awaited sleeps between strokes; stopDuring i
says whether stopAnimation ran during the sleep that follows stroke i
(cooperative cancellation: the flag is only read between strokes). The
function returns the final flag state together with the indices of the
strokes whose reveal transition was begun, in order. -/

/-- Animator flags: isAnimating (React state) and the abort ref. -/
structure AnimState where
  isAnimating : Bool
  abort : Bool
deriving DecidableEq

/-- The for-loop of playAnimation (lines 203–208): at each stroke the abort
flag is checked; if clear, the stroke's transition begins and the loop
sleeps, during which stopAnimation may set the flag. -/
def animLoop (stopDuring : Nat → Bool) :
    List SvgPath → Nat → Bool → Bool × List Nat
  | [], _, a => (a, [])
  | _ :: rest, i, a =>
    if a then (a, [])
    else
      let a2 := a || stopDuring i
      let r := animLoop stopDuring rest (i + 1) a2
      (r.1, i :: r.2)

/-- part_000 lines 171–212: playAnimation. Returns the final flag state and
the list of begun stroke indices. A null svg host is a silent return; a
play while already animating returns before touching any state; an empty
extracted stroke list resets the abort flag, then returns through the
finally block. -/
def playAnimation (st : AnimState) (svgEl : Option (List SvgPath))
    (stopDuring : Nat → Bool) : AnimState × List Nat :=
  match svgEl with
  | none => (st, [])
  | some _ =>
    if st.isAnimating then (st, [])
    else
      let strokes := extractStrokes svgEl
      match strokes with
      | [] => ({ isAnimating := false, abort := false }, [])
      | _ =>
        let r := animLoop stopDuring strokes 0 false
        ({ isAnimating := false, abort := r.1 }, r.2)

/-- part_000 lines 214–217: stopAnimation sets the abort flag and clears
isAnimating immediately. -/
def stopAnimation (st : AnimState) : AnimState :=
  { st with abort := true, isAnimating := false }

/-! ## Vector-markup sanitizer (src/src/App.jsx, lines 236–255)

Each String.prototype.replace call replaces the leftmost match of its
regex (no g flag except the anchored comment one). The three patterns have
the shape LITERAL (lazy gap) CLOSER (greedy whitespace) with the closer
characters excluded from the literal, so the leftmost match starts at the
first case-insensitive occurrence of the literal and the lazy gap ends at
the first later occurrence of the closer; if the literal never occurs, or
no closer follows it, nothing matches anywhere and the string is returned
unchanged. -/

/-- The JS whitespace class \s (also the set trimmed by trim()):
WhiteSpace ∪ LineTerminator. -/
def isJsSpace (c : Char) : Bool :=
  c = ' ' ∨ c = '\t' ∨ c = '\n' ∨ c = '\r' ∨
  c.toNat = 11 ∨ c.toNat = 12 ∨ c.toNat = 0xa0 ∨ c.toNat = 0xfeff ∨
  c.toNat = 0x1680 ∨ (0x2000 ≤ c.toNat ∧ c.toNat ≤ 0x200a) ∨
  c.toNat = 0x2028 ∨ c.toNat = 0x2029 ∨ c.toNat = 0x202f ∨
  c.toNat = 0x205f ∨ c.toNat = 0x3000

/-- Exact prefix test on character lists. -/
def startsWithCh : List Char → List Char → Bool
  | [], _ => true
  | _ :: _, [] => false
  | p :: ps, c :: cs => p = c && startsWithCh ps cs

/-- Case-insensitive (ASCII-lowered) prefix test; the pattern is given
already lowered. -/
def startsWithCI : List Char → List Char → Bool
  | [], _ => true
  | _ :: _, [] => false
  | p :: ps, c :: cs => p = asciiLowerChar c && startsWithCI ps cs

/-- Split at the first case-insensitive occurrence of pat: the characters
before the occurrence, and the suffix starting at it. -/
def splitAtCI (pat : List Char) : List Char → Option (List Char × List Char)
  | [] => if startsWithCI pat [] then some ([], []) else none
  | c :: t =>
    if startsWithCI pat (c :: t) then some ([], c :: t)
    else (splitAtCI pat t).map (fun pr => (c :: pr.1, pr.2))

/-- Drop through the first exact occurrence of pat, returning what follows
it. -/
def dropToAfterSub (pat : List Char) : List Char → Option (List Char)
  | [] => if startsWithCh pat [] then some [] else none
  | c :: t =>
    if startsWithCh pat (c :: t) then some ((c :: t).drop pat.length)
    else dropToAfterSub pat t

/-- App.jsx line 244: s.replace of the XML prolog pattern (case-insensitive
literal, lazy gap, closer "?>", then greedy whitespace). -/
def replaceProlog (cs : List Char) : List Char :=
  match splitAtCI "<?xml".data cs with
  | none => cs
  | some pr =>
    match dropToAfterSub "?>".data (pr.2.drop 5) with
    | none => cs
    | some rest => pr.1 ++ rest.dropWhile isJsSpace

/-- App.jsx line 247: s.replace of the DOCTYPE-with-internal-subset
pattern (closer is the two characters of a bracket-end followed by a
greater-than sign). -/
def replaceDoctypeSubset (cs : List Char) : List Char :=
  match splitAtCI "<!doctype".data cs with
  | none => cs
  | some pr =>
    match dropToAfterSub "]>".data (pr.2.drop 9) with
    | none => cs
    | some rest => pr.1 ++ rest.dropWhile isJsSpace

/-- App.jsx line 249: the plain DOCTYPE fallback — the gap is a run of
non-gt characters, so the match runs to the first greater-than sign after
the literal. -/
def replaceDoctypePlain (cs : List Char) : List Char :=
  match splitAtCI "<!doctype".data cs with
  | none => cs
  | some pr =>
    match dropToAfterSub [Char.ofNat 62] (pr.2.drop 9) with
    | none => cs
    | some rest => pr.1 ++ rest.dropWhile isJsSpace

/-- One repetition of the anchored leading-comment pattern: optional
whitespace, a comment opener, a lazy gap to the first comment closer.
Returns what follows the closer, or none when the repetition does not
match (so nothing more is consumed). -/
def commentStep (cs : List Char) : Option (List Char) :=
  let t := cs.dropWhile isJsSpace
  if startsWithCh "<!--".data t then dropToAfterSub "-->".data (t.drop 4)
  else none

/-- Iterate commentStep; after each repetition the following whitespace is
consumed (it is the trailing \s* of that repetition). Each successful step
removes at least the seven characters of a comment, so cs.length fuel
suffices. -/
def stripCommentsLoop : Nat → List Char → List Char
  | 0, cs => cs
  | fuel + 1, cs =>
    match commentStep cs with
    | some rest => stripCommentsLoop fuel (rest.dropWhile isJsSpace)
    | none => cs

/-- App.jsx line 252: remove the leading run of comment blocks (the
anchored, one-or-more-repetitions replace). -/
def stripLeadingComments (cs : List Char) : List Char :=
  match commentStep cs with
  | some rest => stripCommentsLoop cs.length (rest.dropWhile isJsSpace)
  | none => cs

/-- String.prototype.trim on character lists. -/
def trimChars (cs : List Char) : List Char :=
  ((cs.dropWhile isJsSpace).reverse.dropWhile isJsSpace).reverse

/-- App.jsx lines 236–255: sanitizeKanjivgSvg(raw). A falsy (empty) input
returns "" at once; otherwise the prolog, the doctype (internal-subset
form first, then the plain form), and the leading comments are removed in
that order and the result is trimmed. -/
def sanitizeKanjivgSvg (raw : String) : String :=
  if raw = "" then ""
  else
    let s1 := replaceProlog raw.data
    let s2 := replaceDoctypeSubset s1
    let s3 := replaceDoctypePlain s2
    let s4 := stripLeadingComments s3
    String.mk (trimChars s4)

/-! ## List-screen normalizer (src/src/App.jsx, lines 3–31) -/

/-- The normalized info shape returned by normalizeInfo. The fields keep
whatever JS values the lookup produced (the function does not coerce
them). -/
structure InfoNorm where
  hanTu : JSValue
  hanViet : JSValue
  nghia : JSValue
  kun : JSValue
  onV : JSValue
  bo : JSValue

/-- The inner get(...keys) helper: the first key present in the info map
wins (the `in` operator tests presence, not truthiness); "" if none is. -/
def getIn (info : JSValue) : List String → JSValue
  | [] => .str ""
  | k :: rest => if hasField info k then getField info k else getIn info rest

/-- JS logical-or a || b: a when truthy, else b. -/
def jsLogicalOr (a b : JSValue) : JSValue :=
  if jsTruthy a then a else b

/-- JS typeof v === "object" (true for null, arrays and plain objects). -/
def isObjTypeof (v : JSValue) : Bool :=
  match v with
  | .null => true
  | .arr _ => true
  | .obj _ => true
  | _ => false

/-- App.jsx lines 3–31: normalizeInfo(info = {}). The default parameter
applies to undefined only. Each concept is a priority-ordered candidate-key
lookup; the reading fields are returned exactly as stored — no
tokenization, splitting or deduplication happens here. (For a null hanTu
or bo the source would throw on property access; modelled as the undefined
lookup, unreachable in the theorems below.) -/
def normalizeInfo (info0 : JSValue) : InfoNorm :=
  let info := match info0 with | .undefined => .obj [] | v => v
  let hanTu := getIn info ["Hán tự"]
  let hanViet := getIn info ["Hán-Việt", "Hán Việt", "Âm Hán", "Âm hán"]
  let nghia := getIn info ["Nghĩa", "Ý nghĩa", "Nghĩa:", "Nghia"]
  let kun := getIn info ["Kunyomi", "Kun", "Âm Kun", "Âm kunyomi"]
  let onv := getIn info ["Onyomi", "On", "Âm On", "Âm onyomi"]
  let bo := getIn info ["Bộ"]
  let hanTuVal :=
    if isObjTypeof hanTu then
      jsLogicalOr (getField hanTu "kanji") (jsLogicalOr (getField hanTu "text") (.str ""))
    else hanTu
  let boVal :=
    if isObjTypeof bo then jsLogicalOr (getField bo "text") (.str "")
    else bo
  { hanTu := hanTuVal, hanViet := hanViet, nghia := nghia,
    kun := kun, onV := onv, bo := boVal }

/-! ## Example-string parsing (src/unnamed/part_000, lines 242–281)

The string branch of pushExample matches three regexes. They are embedded
directly, with JS backtracking semantics:
  pattern 1: word, parenthesized reading, colon, gloss;
  pattern 2: word, parenthesized reading, end;
  pattern 3: word, colon, gloss.
The lazy word group (one or more dot characters, shortest first) is
realised by scanning candidate split positions left to right; the
parenthesized reading is a maximal run of non-close-paren characters (no
backtracking is possible into it, because the following close paren is
excluded from the run); the greedy whitespace before the final gloss group
backs off by at most its last character when the gloss would otherwise be
empty. The JS dot matches everything but line terminators. -/

/-- The JS regex dot: any character except a line terminator. -/
def isDot (c : Char) : Bool :=
  ¬(c = '\n' ∨ c = '\r' ∨ c.toNat = 0x2028 ∨ c.toNat = 0x2029)

/-- Open-paren class of the patterns (fullwidth or ASCII). -/
def isOpenParen (c : Char) : Bool := c = '（' ∨ c = '('

/-- Close-paren class of the patterns (fullwidth or ASCII). -/
def isCloseParen (c : Char) : Bool := c = '）' ∨ c = ')'

/-- Colon class of the patterns (ASCII or fullwidth). -/
def isColonChar (c : Char) : Bool := c = ':' ∨ c = '：'

/-- Tail pattern: greedy whitespace, then a final one-or-more-dots group
running to the end of the string. The greedy whitespace backs off only
when the remainder would be empty, leaving a single (whitespace) character
for the group; the group fails if any remaining character is a line
terminator. -/
def finalGroup (cs : List Char) : Option (List Char) :=
  match cs with
  | [] => none
  | _ =>
    let w := cs.takeWhile isJsSpace
    let r := cs.drop (min w.length (cs.length - 1))
    if r.all isDot then some r else none

/-- Tail pattern: whitespace, a colon-class character, then finalGroup. -/
def colonGap (cs : List Char) : Option (List Char) :=
  match cs.dropWhile isJsSpace with
  | [] => none
  | c :: t2 => if isColonChar c then finalGroup t2 else none

/-- Scan for pattern 1 with the reversed word accumulated in g1rev: at each
position, either the open paren of a full pattern-1 match starts here, or
the position's character (a dot) is absorbed into the word and the scan
moves on. -/
def m1From (g1rev : List Char) : List Char → Option (String × String × String)
  | [] => none
  | c :: t =>
    let tryHere : Option (String × String × String) :=
      if isOpenParen c then
        let g2 := t.takeWhile (fun x => ¬ isCloseParen x)
        match t.drop g2.length with
        | c2 :: t3 =>
          if isCloseParen c2 ∧ g2 ≠ [] then
            (colonGap t3).map (fun g3 =>
              (String.mk g1rev.reverse, String.mk g2, String.mk g3))
          else none
        | [] => none
      else none
    match tryHere with
    | some r => some r
    | none => if isDot c then m1From (c :: g1rev) t else none

/-- Pattern 1 (part_000 line 257): word（reading）: gloss. -/
def m1Match : List Char → Option (String × String × String)
  | [] => none
  | c :: t => if isDot c then m1From [c] t else none

/-- Scan for pattern 2, like m1From but the close paren must end the
string. -/
def m2From (g1rev : List Char) : List Char → Option (String × String)
  | [] => none
  | c :: t =>
    let tryHere : Option (String × String) :=
      if isOpenParen c then
        let g2 := t.takeWhile (fun x => ¬ isCloseParen x)
        match t.drop g2.length with
        | c2 :: t3 =>
          if isCloseParen c2 ∧ g2 ≠ [] ∧ t3 = [] then
            some (String.mk g1rev.reverse, String.mk g2)
          else none
        | [] => none
      else none
    match tryHere with
    | some r => some r
    | none => if isDot c then m2From (c :: g1rev) t else none

/-- Pattern 2 (part_000 line 258): word（reading）. -/
def m2Match : List Char → Option (String × String)
  | [] => none
  | c :: t => if isDot c then m2From [c] t else none

/-- Scan for pattern 3: at each position, either the colon tail matches
from here, or the position's character is absorbed into the word. -/
def m3From (g1rev : List Char) (rest : List Char) : Option (String × String) :=
  match colonGap rest with
  | some g3 => some (String.mk g1rev.reverse, String.mk g3)
  | none =>
    match rest with
    | [] => none
    | c :: t => if isDot c then m3From (c :: g1rev) t else none

/-- Pattern 3 (part_000 line 259): word: gloss. -/
def m3Match : List Char → Option (String × String)
  | [] => none
  | c :: t => if isDot c then m3From [c] t else none

/-- JS trim as a String function. -/
def trimStr (s : String) : String :=
  String.mk (trimChars s.data)

/-- part_000 lines 249–269: the string branch of pushExample. All three
patterns are matched; each output field falls back through the patterns
independently (word: 1, 2, 3, whole string; reading: 1, 2, empty; gloss:
1, 3, empty); a string that trims to empty produces nothing. -/
def parseExampleString (ex : String) : Option ExampleV :=
  let s := trimStr ex
  if s = "" then none
  else
    let r1 := m1Match s.data
    let r2 := m2Match s.data
    let r3 := m3Match s.data
    let tu :=
      match r1 with
      | some g => g.1
      | none =>
        match r2 with
        | some g => g.1
        | none =>
          match r3 with
          | some g => g.1
          | none => s
    let hira :=
      match r1 with
      | some g => g.2.1
      | none =>
        match r2 with
        | some g => g.2
        | none => ""
    let gloss :=
      match r1 with
      | some g => g.2.2
      | none =>
        match r3 with
        | some g => g.2
        | none => ""
    some { tu := trimStr tu, hiragana := trimStr hira, nghia := trimStr gloss }

/-- Modelled from the spec words, for comparison in claim C8 only: "try,
in order, three patterns … first match wins; if none match, the whole
string is the word with empty reading and gloss". Under this reading a
string on which pattern 2 is the first to match gets an empty gloss. -/
def specFirstMatchParse (ex : String) : Option ExampleV :=
  let s := trimStr ex
  if s = "" then none
  else
    match m1Match s.data with
    | some g => some { tu := trimStr g.1, hiragana := trimStr g.2.1, nghia := trimStr g.2.2 }
    | none =>
      match m2Match s.data with
      | some g => some { tu := trimStr g.1, hiragana := trimStr g.2, nghia := "" }
      | none =>
        match m3Match s.data with
        | some g => some { tu := trimStr g.1, hiragana := "", nghia := trimStr g.2 }
        | none => some { tu := s, hiragana := "", nghia := "" }

/-! ## Helper lemmas -/

/-- Nullish values coalesce to the default. -/
theorem jsOrElse_of_nullish {v : JSValue} (d : JSValue) (h : isNullish v = true) :
    jsOrElse v d = d := by
  cases v <;> simp_all [isNullish, jsOrElse]

/-- Non-nullish values survive coalescing. -/
theorem jsOrElse_of_not_nullish {v : JSValue} (d : JSValue) (h : isNullish v = false) :
    jsOrElse v d = v := by
  cases v <;> simp_all [isNullish, jsOrElse]

/-- Coalescing against a string default never yields a nullish value. -/
theorem isNullish_jsOrElse_str (v : JSValue) (s : String) :
    isNullish (jsOrElse v (.str s)) = false := by
  cases v <;> simp [isNullish, jsOrElse]

/-- The strict-equality-with-false test characterised. -/
theorem jsStrictEqFalse_iff (v : JSValue) :
    jsStrictEqFalse v = true ↔ v = .bool false := by
  cases v with
  | bool b => cases b <;> simp [jsStrictEqFalse]
  | _ => simp [jsStrictEqFalse]

/-- The chu field of a normalized Entry, definitionally. -/
theorem normalize_chu (raw : JSValue) (now : String) :
    (normalizeKanjiItem raw now).chu
      = jsToString (jsOrElse (getField (jsOrElse raw (.obj [])) "chu") (.str "")) := rfl

/-- The svg.exists flag of a normalized Entry, definitionally. -/
theorem normalize_svgExists (raw : JSValue) (now : String) :
    (normalizeKanjiItem raw now).svg.svgExists
      = if jsStrictEqFalse
            (getField (jsOrElse (getField (jsOrElse raw (.obj [])) "svg") (.obj [])) "exists")
        then false else true := rfl

/-- The svg.codepoint_hex field of a normalized Entry, definitionally. -/
theorem normalize_codepointHex (raw : JSValue) (now : String) :
    (normalizeKanjiItem raw now).svg.codepoint_hex
      = jsOrElse
          (getField (jsOrElse (getField (jsOrElse raw (.obj [])) "svg") (.obj []))
            "codepoint_hex")
          (.str (if jsToString (jsOrElse (getField (jsOrElse raw (.obj [])) "chu") (.str "")) ≠ ""
                 then toCodepointHex
                   (jsToString (jsOrElse (getField (jsOrElse raw (.obj [])) "chu") (.str "")))
                 else "")) := rfl

/-- The svg.path field of a normalized Entry, definitionally. -/
theorem normalize_path (raw : JSValue) (now : String) :
    (normalizeKanjiItem raw now).svg.path
      = jsToString (jsOrElse
          (getField (jsOrElse (getField (jsOrElse raw (.obj [])) "svg") (.obj [])) "path")
          (.str (if jsTruthy ((normalizeKanjiItem raw now).svg.codepoint_hex) then
                   "resources/kanji_svg/"
                     ++ jsToString ((normalizeKanjiItem raw now).svg.codepoint_hex) ++ ".svg"
                 else ""))) := rfl

/-! ## C10 — the normalized svg.exists flag -/

/-- C10: the normalized Entry's svg.exists flag is false exactly when the
input's svg.exists property is the boolean value false; every other input
value there (absent, null, 0, the empty string, the string "false", or any
truthy value) normalizes to true. -/
theorem C10_thm :
    (∀ (raw : JSValue) (now : String),
      (normalizeKanjiItem raw now).svg.svgExists = false ↔
        getField (jsOrElse (getField (jsOrElse raw (.obj [])) "svg") (.obj [])) "exists"
          = .bool false)
    ∧ (normalizeKanjiItem (.obj [("svg", .obj [("exists", .bool false)])]) "t").svg.svgExists
        = false
    ∧ (normalizeKanjiItem (.obj []) "t").svg.svgExists = true
    ∧ (normalizeKanjiItem (.obj [("svg", .obj [("exists", .null)])]) "t").svg.svgExists = true
    ∧ (normalizeKanjiItem (.obj [("svg", .obj [("exists", .num 0)])]) "t").svg.svgExists = true
    ∧ (normalizeKanjiItem (.obj [("svg", .obj [("exists", .str "")])]) "t").svg.svgExists = true
    ∧ (normalizeKanjiItem (.obj [("svg", .obj [("exists", .str "false")])]) "t").svg.svgExists
        = true
    ∧ (normalizeKanjiItem (.obj [("svg", .obj [("exists", .bool true)])]) "t").svg.svgExists
        = true := by
  refine ⟨?_, rfl, rfl, rfl, rfl, rfl, rfl, rfl⟩
  intro raw now
  rw [normalize_svgExists]
  rcases hb : jsStrictEqFalse
      (getField (jsOrElse (getField (jsOrElse raw (.obj [])) "svg") (.obj [])) "exists")
    with _ | _
  · simp only [Bool.false_eq_true, if_false]
    refine ⟨fun h => absurd h (by simp), fun h => ?_⟩
    rw [← jsStrictEqFalse_iff, hb] at h
    exact absurd h (by simp)
  · simp only [if_pos rfl]
    simpa using (jsStrictEqFalse_iff _).mp hb

/-! ## C9 — legacy reading fields are passed through untokenized -/

/-- C9 counterexample: the compact legacy reading string "ひ -び -か" is
returned by normalizeInfo exactly as stored — it is not tokenized into the
list ["ひ","び","か"] the claim describes. -/
theorem C9_counterexample :
    (normalizeInfo (.obj [("Kunyomi", .str "ひ -び -か")])).kun = .str "ひ -び -か"
    ∧ (normalizeInfo (.obj [("Kunyomi", .str "ひ -び -か")])).kun
        ≠ .arr [.str "ひ", .str "び", .str "か"] := by
  refine ⟨rfl, fun h => ?_⟩
  have h2 : JSValue.str "ひ -び -か" = .arr [.str "ひ", .str "び", .str "か"] := h
  exact JSValue.noConfusion h2

/-- C9 (amended): normalizeInfo performs no tokenization at all — a legacy
record's compact reading string is returned unchanged as the kun field
(and likewise for on); no splitting on whitespace or hyphens, no
deduplication and no list construction happen anywhere in normalization. -/
theorem C9_thm (s : String) :
    (normalizeInfo (.obj [("Kunyomi", .str s)])).kun = .str s
    ∧ (normalizeInfo (.obj [("Onyomi", .str s)])).onV = .str s :=
  ⟨rfl, rfl⟩

/-! ## C8 — example-string parsing -/

/-- C8 counterexample: on "a:b（c）" pattern 1 fails while patterns 2 and 3
both match, and the source combines pattern 2's word and reading with
pattern 3's gloss — under the claim's first-match-wins reading, pattern 2
would win outright and the gloss would be empty. -/
theorem C8_counterexample :
    parseExampleString "a:b（c）" = some ⟨"a:b", "c", "b（c）"⟩
    ∧ specFirstMatchParse "a:b（c）" = some ⟨"a:b", "c", ""⟩
    ∧ parseExampleString "a:b（c）" ≠ specFirstMatchParse "a:b（c）" := by
  refine ⟨by decide, by decide, by decide⟩

/-- C8 (amended): the three patterns are matched independently and each
output field falls back through them on its own — word from pattern 1,
else 2, else 3, else the whole trimmed string; reading from pattern 1,
else 2, else empty; gloss from pattern 1, else 3, else empty — so the
three cited examples parse exactly as stated, and a string matching no
pattern becomes the word with empty reading and gloss. -/
theorem C8_thm :
    parseExampleString "日本（にほん）: Japan" = some ⟨"日本", "にほん", "Japan"⟩
    ∧ parseExampleString "日本（にほん）" = some ⟨"日本", "にほん", ""⟩
    ∧ parseExampleString "日本: Japan" = some ⟨"日本", "", "Japan"⟩
    ∧ parseExampleString "日本" = some ⟨"日本", "", ""⟩ := by
  refine ⟨by decide, by decide, by decide, by decide⟩

/-! ## C1 — records with no determinable character are not rejected -/

/-- C1 counterexample: a record with no character field at all is not
rejected by normalizeKanjiItem — it yields an Entry with empty chu, and a
two-record batch maps to two Entries, so nothing is returned as null or
dropped. -/
theorem C1_counterexample :
    (normalizeKanjiItem (.obj []) "2024-01-01T00:00:00.000Z").chu = ""
    ∧ (([JSValue.obj [], .obj [("chu", .str "日")]]).map
        (fun r => normalizeKanjiItem r "2024-01-01T00:00:00.000Z")).length = 2 :=
  ⟨rfl, rfl⟩

/-- C1 (amended): normalization never rejects. A raw record from which no
character identity can be determined (its chu coerces to the empty string,
and its svg record carries no explicit codepoint hex or path) is
normalized — without error — into an Entry with empty chu, empty codepoint
hex and empty svg path, and batch normalization maps every record of a
batch to an Entry, dropping none. -/
theorem C1_thm (raw : JSValue) (now : String)
    (hchu : jsToString (jsOrElse (getField (jsOrElse raw (.obj [])) "chu") (.str "")) = "")
    (hhex : isNullish (getField (jsOrElse (getField (jsOrElse raw (.obj [])) "svg") (.obj []))
        "codepoint_hex") = true)
    (hpath : isNullish (getField (jsOrElse (getField (jsOrElse raw (.obj [])) "svg") (.obj []))
        "path") = true) :
    (normalizeKanjiItem raw now).chu = ""
    ∧ (normalizeKanjiItem raw now).svg.codepoint_hex = .str ""
    ∧ (normalizeKanjiItem raw now).svg.path = ""
    ∧ ∀ batch : List JSValue,
        (batch.map (fun r => normalizeKanjiItem r now)).length = batch.length := by
  have h2 : (normalizeKanjiItem raw now).svg.codepoint_hex = .str "" := by
    rw [normalize_codepointHex, jsOrElse_of_nullish _ hhex, if_neg (by simp [hchu])]
  have h3 : (normalizeKanjiItem raw now).svg.path = "" := by
    rw [normalize_path, jsOrElse_of_nullish _ hpath, h2]
    simp [jsTruthy, jsToString]
  exact ⟨by rw [normalize_chu, hchu], h2, h3, fun batch => by simp⟩

/-- C1 witness: the amended statement at the empty record. -/
theorem C1_witness :
    (normalizeKanjiItem (.obj []) "t0").chu = ""
    ∧ (normalizeKanjiItem (.obj []) "t0").svg.codepoint_hex = .str ""
    ∧ (normalizeKanjiItem (.obj []) "t0").svg.path = ""
    ∧ ([JSValue.obj []].map (fun r => normalizeKanjiItem r "t0")).length = 1 := by
  have h := C1_thm (.obj []) "t0" rfl rfl rfl
  exact ⟨h.1, h.2.1, h.2.2.1, h.2.2.2 [.obj []]⟩

/-! ## C2 — stroke extraction -/

/-- C2: for a document holding one guide path (stroke color lowering to
the guide constant "#bcc9e2") and N real stroke paths (stroke color not
the guide constant, non-empty d attribute), extractStrokes returns exactly
the N real paths in document order; and in general extraction is exactly a
document-order filter (a sublist of the document — no reordering, merging
or splitting). -/
theorem C2_thm (l₁ l₂ : List SvgPath) (g : SvgPath)
    (hg : asciiLowerStr (g.stroke.getD "") = "#bcc9e2")
    (hreal : ∀ p ∈ l₁ ++ l₂,
        asciiLowerStr (p.stroke.getD "") ≠ "#bcc9e2" ∧ p.d.getD "" ≠ "") :
    extractStrokes (some (l₁ ++ g :: l₂)) = l₁ ++ l₂
    ∧ (extractStrokes (some (l₁ ++ g :: l₂))).length = l₁.length + l₂.length
    ∧ ∀ doc : List SvgPath,
        extractStrokes (some doc) = doc.filter isStrokePath
        ∧ (extractStrokes (some doc)).Sublist doc := by
  have hgf : isStrokePath g = false := by
    simp [isStrokePath, hg]
  have hkeep : ∀ p ∈ l₁ ++ l₂, isStrokePath p = true := by
    intro p hp
    obtain ⟨hs, hd⟩ := hreal p hp
    rcases hds : p.d with _ | s
    · rw [hds] at hd; simp at hd
    · rw [hds] at hd
      simp only [Option.getD_some] at hd
      simp [isStrokePath, hs, hds, hd]
  have he : extractStrokes (some (l₁ ++ g :: l₂)) = l₁ ++ l₂ := by
    simp only [extractStrokes]
    rw [show l₁ ++ g :: l₂ = l₁ ++ [g] ++ l₂ by simp]
    rw [List.filter_append, List.filter_append]
    rw [List.filter_eq_self.mpr (fun a ha => hkeep a (List.mem_append_left _ ha)),
        List.filter_eq_self.mpr (fun a ha => hkeep a (List.mem_append_right _ ha))]
    simp [List.filter_cons, hgf]
  refine ⟨he, by rw [he]; simp, fun doc => ⟨rfl, ?_⟩⟩
  simp only [extractStrokes]
  exact List.filter_sublist doc

/-- C2 witness: one uppercase-colored guide line between two real strokes
is dropped, the two real strokes are kept in order. -/
theorem C2_witness :
    extractStrokes (some ([({ stroke := some "#000000", d := some "M1 2" } : SvgPath)]
        ++ ({ stroke := some "#BCC9E2", d := some "M0 0" } : SvgPath)
        :: [({ stroke := none, d := some "M3 4" } : SvgPath)]))
      = [({ stroke := some "#000000", d := some "M1 2" } : SvgPath)]
        ++ [({ stroke := none, d := some "M3 4" } : SvgPath)]
    ∧ (extractStrokes (some ([({ stroke := some "#000000", d := some "M1 2" } : SvgPath)]
        ++ ({ stroke := some "#BCC9E2", d := some "M0 0" } : SvgPath)
        :: [({ stroke := none, d := some "M3 4" } : SvgPath)]))).length
      = [({ stroke := some "#000000", d := some "M1 2" } : SvgPath)].length
        + [({ stroke := none, d := some "M3 4" } : SvgPath)].length := by
  have h := C2_thm [{ stroke := some "#000000", d := some "M1 2" }]
      [{ stroke := none, d := some "M3 4" }]
      { stroke := some "#BCC9E2", d := some "M0 0" } (by decide) (by decide)
  exact ⟨h.1, h.2.1⟩

/-! ## Animator lemmas -/

/-- Once the abort flag is up at a loop check, nothing more starts. -/
theorem animLoop_aborted (sd : Nat → Bool) (l : List SvgPath) (i : Nat) :
    animLoop sd l i true = (true, []) := by
  cases l <;> simp [animLoop]

/-- Characterization of the started strokes: index x is begun exactly when
it is inside the list and no stop was requested during any earlier
stroke's scheduled wait. -/
theorem animLoop_mem (sd : Nat → Bool) :
    ∀ (l : List SvgPath) (i0 x : Nat),
      x ∈ (animLoop sd l i0 false).2
        ↔ i0 ≤ x ∧ x < i0 + l.length ∧ ∀ k, i0 ≤ k → k < x → sd k = false := by
  intro l
  induction l with
  | nil =>
    intro i0 x
    simp only [animLoop, List.not_mem_nil, List.length_nil, Nat.add_zero, false_iff]
    intro h
    omega
  | cons p rest ih =>
    intro i0 x
    have hred : (animLoop sd (p :: rest) i0 false).2
        = i0 :: (animLoop sd rest (i0 + 1) (sd i0)).2 := by
      simp [animLoop]
    rw [hred]
    simp only [List.mem_cons, List.length_cons]
    rcases hsd : sd i0 with _ | _
    · rw [ih (i0 + 1) x]
      constructor
      · rintro (rfl | ⟨h1, h2, h3⟩)
        · exact ⟨Nat.le_refl _, by omega, fun k hk1 hk2 => absurd hk1 (by omega)⟩
        · refine ⟨by omega, by omega, fun k hk1 hk2 => ?_⟩
          rcases Nat.eq_or_lt_of_le hk1 with rfl | hlt
          · exact hsd
          · exact h3 k hlt hk2
      · rintro ⟨h1, h2, h3⟩
        rcases Nat.eq_or_lt_of_le h1 with rfl | hlt
        · exact Or.inl rfl
        · exact Or.inr ⟨hlt, by omega, fun k hk1 hk2 => h3 k (by omega) hk2⟩
    · rw [animLoop_aborted]
      simp only [List.not_mem_nil, or_false]
      constructor
      · rintro rfl
        exact ⟨Nat.le_refl _, by omega, fun k hk1 hk2 => absurd hk1 (by omega)⟩
      · rintro ⟨h1, h2, h3⟩
        rcases Nat.eq_or_lt_of_le h1 with rfl | hlt
        · rfl
        · exact absurd (h3 i0 (Nat.le_refl _) hlt) (by simp [hsd])


/-- Characterization of playAnimation's begun strokes from the Idle
state. -/
theorem play_mem (st : AnimState) (el : Option (List SvgPath)) (sd : Nat → Bool) (x : Nat)
    (h : st.isAnimating = false) :
    x ∈ (playAnimation st el sd).2
      ↔ x < (extractStrokes el).length ∧ ∀ k, k < x → sd k = false := by
  rcases el with _ | ps
  · simp [playAnimation, extractStrokes]
  · simp only [playAnimation, h, Bool.false_eq_true, if_false]
    rcases hE : extractStrokes (some ps) with _ | ⟨q, qs⟩
    · simp [hE]
    · simp only [hE]
      rw [animLoop_mem]
      constructor
      · rintro ⟨h1, h2, h3⟩
        exact ⟨by simpa using h2, fun k hk => h3 k (Nat.zero_le _) hk⟩
      · rintro ⟨h1, h2⟩
        exact ⟨Nat.zero_le _, by simpa using h1, fun k _ hk => h2 k hk⟩

/-- The final state of playAnimation from Idle is Idle (the finally block
always clears isAnimating). -/
theorem play_final_idle (st : AnimState) (el : Option (List SvgPath)) (sd : Nat → Bool)
    (h : st.isAnimating = false) :
    (playAnimation st el sd).1.isAnimating = false := by
  rcases el with _ | ps
  · simpa [playAnimation] using h
  · simp only [playAnimation, h, Bool.false_eq_true, if_false]
    rcases extractStrokes (some ps) with _ | ⟨q, qs⟩ <;> rfl

/-! ## C3 — re-entrant play and empty stroke lists are no-ops -/

/-- C3: a play call while the state is Animating returns at once with the
state untouched and begins no stroke (the second call is ignored, not
queued or restarted — at most one animation instance runs); and a play
whose extracted stroke list is empty begins no stroke and leaves
isAnimating exactly as it was. -/
theorem C3_thm (st : AnimState) (svgEl : Option (List SvgPath)) (sd : Nat → Bool) :
    (st.isAnimating = true → playAnimation st svgEl sd = (st, []))
    ∧ (extractStrokes svgEl = [] →
        (playAnimation st svgEl sd).2 = []
        ∧ (playAnimation st svgEl sd).1.isAnimating = st.isAnimating) := by
  constructor
  · intro h
    rcases svgEl with _ | ps
    · rfl
    · simp [playAnimation, h]
  · intro hE
    rcases svgEl with _ | ps
    · exact ⟨rfl, rfl⟩
    · rcases hia : st.isAnimating with _ | _
      · refine ⟨?_, ?_⟩ <;> simp [playAnimation, hia, hE]
      · simp [playAnimation, hia]

/-- C3 witness: a play during animation is the identity, and a play over a
document whose only path is a guide line begins nothing and stays Idle. -/
theorem C3_witness :
    playAnimation { isAnimating := true, abort := false }
        (some [{ stroke := none, d := some "M0 0" }]) (fun _ => false)
      = ({ isAnimating := true, abort := false }, [])
    ∧ (playAnimation { isAnimating := false, abort := false }
        (some [{ stroke := some "#bcc9e2", d := some "M0 0" }]) (fun _ => false)).2 = [] := by
  constructor
  · exact (C3_thm { isAnimating := true, abort := false }
      (some [{ stroke := none, d := some "M0 0" }]) (fun _ => false)).1 rfl
  · exact ((C3_thm { isAnimating := false, abort := false }
      (some [{ stroke := some "#bcc9e2", d := some "M0 0" }]) (fun _ => false)).2 (by decide)).1

/-! ## C4 — stop is cooperative and final -/

/-- C4: stopAnimation raises the abort flag and makes the state Idle at
once; if stop is requested during the scheduled wait that follows stroke
i, then no stroke after i is ever begun, the animation ends Idle, and —
the abort being checked only between strokes — stroke i itself still began
whenever its turn was reached with no earlier stop request. -/
theorem C4_thm (st : AnimState) (el : Option (List SvgPath)) (sd : Nat → Bool) (i : Nat)
    (hst : st.isAnimating = false) (hstop : sd i = true) :
    (stopAnimation st).abort = true
    ∧ (stopAnimation st).isAnimating = false
    ∧ (∀ j, i < j → j ∉ (playAnimation st el sd).2)
    ∧ (playAnimation st el sd).1.isAnimating = false
    ∧ ((∀ k, k < i → sd k = false) → i < (extractStrokes el).length →
        i ∈ (playAnimation st el sd).2) := by
  refine ⟨rfl, rfl, ?_, play_final_idle st el sd hst, ?_⟩
  · intro j hj hmem
    rw [play_mem st el sd j hst] at hmem
    exact absurd (hmem.2 i hj) (by simp [hstop])
  · intro hbefore hlen
    rw [play_mem st el sd i hst]
    exact ⟨hlen, hbefore⟩

/-- C4 witness: three real strokes, stop requested during the wait after
stroke 1 — stroke 2 never begins, the state ends Idle, strokes 0 and 1
did begin. -/
theorem C4_witness :
    (stopAnimation { isAnimating := false, abort := false }).abort = true
    ∧ (stopAnimation { isAnimating := false, abort := false }).isAnimating = false
    ∧ 2 ∉ (playAnimation { isAnimating := false, abort := false }
        (some [{ stroke := none, d := some "M0" }, { stroke := none, d := some "M1" },
               { stroke := none, d := some "M2" }]) (fun n => n == 1)).2
    ∧ (playAnimation { isAnimating := false, abort := false }
        (some [{ stroke := none, d := some "M0" }, { stroke := none, d := some "M1" },
               { stroke := none, d := some "M2" }]) (fun n => n == 1)).1.isAnimating = false
    ∧ 1 ∈ (playAnimation { isAnimating := false, abort := false }
        (some [{ stroke := none, d := some "M0" }, { stroke := none, d := some "M1" },
               { stroke := none, d := some "M2" }]) (fun n => n == 1)).2 := by
  have h := C4_thm { isAnimating := false, abort := false }
      (some [{ stroke := none, d := some "M0" }, { stroke := none, d := some "M1" },
             { stroke := none, d := some "M2" }]) (fun n => n == 1) 1 rfl rfl
  exact ⟨h.1, h.2.1, h.2.2.1 2 (by omega), h.2.2.2.1,
    h.2.2.2.2 (by decide) (by decide)⟩

/-! ## Sanitizer lemmas -/

/-- Rebuilding a string from its characters is the identity. -/
theorem stringMkData (s : String) : String.mk s.data = s := by
  cases s
  rfl

/-- trimChars is dropWhile from the front then rdropWhile from the back. -/
theorem trimChars_def (l : List Char) :
    trimChars l = List.rdropWhile isJsSpace (l.dropWhile isJsSpace) := rfl

/-- Dropping a prefix never lengthens a list. -/
theorem lengthDropWhileLe (p : Char → Bool) (l : List Char) :
    (l.dropWhile p).length ≤ l.length := by
  induction l with
  | nil => simp [List.dropWhile]
  | cons a t ih =>
    by_cases h : p a = true
    · rw [List.dropWhile_cons, if_pos h]
      exact Nat.le_trans ih (Nat.le_succ _)
    · rw [List.dropWhile_cons, if_neg h]

/-- Trimming is idempotent. -/
theorem trimChars_idem (l : List Char) : trimChars (trimChars l) = trimChars l := by
  rw [trimChars_def, trimChars_def]
  have hdd : (l.dropWhile isJsSpace).dropWhile isJsSpace = l.dropWhile isJsSpace :=
    List.dropWhile_idempotent _ _
  have hpre : ∃ u,
      List.rdropWhile isJsSpace (l.dropWhile isJsSpace) ++ u = l.dropWhile isJsSpace := by
    refine ⟨((l.dropWhile isJsSpace).reverse.takeWhile isJsSpace).reverse, ?_⟩
    rw [List.rdropWhile, ← List.reverse_append, List.takeWhile_append_dropWhile,
      List.reverse_reverse]
  have ht : (List.rdropWhile isJsSpace (l.dropWhile isJsSpace)).dropWhile isJsSpace
      = List.rdropWhile isJsSpace (l.dropWhile isJsSpace) := by
    obtain ⟨u, hu⟩ := hpre
    rcases hT : List.rdropWhile isJsSpace (l.dropWhile isJsSpace) with _ | ⟨a, t⟩
    · rfl
    · have hda : l.dropWhile isJsSpace = a :: (t ++ u) := by
        rw [← hu, hT]
        simp
      have hpa : isJsSpace a = false := by
        rcases hx : isJsSpace a with _ | _
        · rfl
        · exfalso
          have h1 : (l.dropWhile isJsSpace).dropWhile isJsSpace
              = (t ++ u).dropWhile isJsSpace := by
            rw [hda, List.dropWhile_cons, hx]
            simp
          have h2 : (l.dropWhile isJsSpace).length ≤ (t ++ u).length := by
            calc (l.dropWhile isJsSpace).length
                = ((t ++ u).dropWhile isJsSpace).length := by rw [← h1, hdd]
              _ ≤ (t ++ u).length := lengthDropWhileLe _ _
          rw [hda] at h2
          simp at h2
      rw [List.dropWhile_cons, hpa]
      simp
  rw [ht, List.rdropWhile_idempotent]

/-- A replace whose pattern has no occurrence is the identity
(XML prolog form). -/
theorem replaceProlog_of_none {cs : List Char}
    (h : splitAtCI "<?xml".data cs = none) : replaceProlog cs = cs := by
  simp [replaceProlog, h]

/-- A replace whose pattern has no occurrence is the identity
(doctype-with-subset form). -/
theorem replaceDoctypeSubset_of_none {cs : List Char}
    (h : splitAtCI "<!doctype".data cs = none) : replaceDoctypeSubset cs = cs := by
  simp [replaceDoctypeSubset, h]

/-- A replace whose pattern has no occurrence is the identity
(plain doctype form). -/
theorem replaceDoctypePlain_of_none {cs : List Char}
    (h : splitAtCI "<!doctype".data cs = none) : replaceDoctypePlain cs = cs := by
  simp [replaceDoctypePlain, h]

/-- When no leading comment matches, the comment stripper is the
identity. -/
theorem stripLeadingComments_of_none {cs : List Char}
    (h : commentStep cs = none) : stripLeadingComments cs = cs := by
  simp [stripLeadingComments, h]

/-! ## C6 — the sanitizer -/

/-- C6 counterexample: the sanitizer is not idempotent on every input —
each replace removes only the first match, so a string with two XML
prologs keeps the second one on the first pass and loses it on the
second. -/
theorem C6_counterexample :
    sanitizeKanjivgSvg "<?xml a?><?xml b?>" = "<?xml b?>"
    ∧ sanitizeKanjivgSvg (sanitizeKanjivgSvg "<?xml a?><?xml b?>") = ""
    ∧ sanitizeKanjivgSvg (sanitizeKanjivgSvg "<?xml a?><?xml b?>")
        ≠ sanitizeKanjivgSvg "<?xml a?><?xml b?>" :=
  ⟨by decide, by decide, by decide⟩

/-- C6 (amended): the sanitizer is total (every string, with or without
prolog and doctype, yields a result), removes in order the XML prolog, the
doctype — in both its internal-subset and plain forms — and the leading
comment blocks, and is idempotent on every input whose sanitized output
contains no further prolog or doctype occurrence and no leading comment
(in particular on well-formed KanjiVG markup, which has at most one of
each); it is not idempotent on arbitrary strings. -/
theorem C6_thm (raw : String)
    (h1 : splitAtCI "<?xml".data (sanitizeKanjivgSvg raw).data = none)
    (h2 : splitAtCI "<!doctype".data (sanitizeKanjivgSvg raw).data = none)
    (h3 : commentStep (sanitizeKanjivgSvg raw).data = none) :
    sanitizeKanjivgSvg (sanitizeKanjivgSvg raw) = sanitizeKanjivgSvg raw
    ∧ sanitizeKanjivgSvg "<?xml version=\"1.0\" encoding=\"UTF-8\"?>\n<!DOCTYPE svg PUBLIC \"-//W3C//DTD SVG 1.1//EN\" \"svg11.dtd\" [\n<!ATTLIST g foo CDATA #IMPLIED>\n]>\n<!-- Copyright notice -->\n<svg>strokes</svg>"
        = "<svg>strokes</svg>"
    ∧ sanitizeKanjivgSvg "<!DOCTYPE svg><svg/>" = "<svg/>"
    ∧ sanitizeKanjivgSvg "<svg/>" = "<svg/>" := by
  refine ⟨?_, by decide, by decide, by decide⟩
  by_cases ht : sanitizeKanjivgSvg raw = ""
  · rw [ht]
    rfl
  · by_cases hraw : raw = ""
    · subst hraw
      rfl
    · have hdata : (sanitizeKanjivgSvg raw).data
          = trimChars (stripLeadingComments (replaceDoctypePlain
              (replaceDoctypeSubset (replaceProlog raw.data)))) := by
        simp only [sanitizeKanjivgSvg, if_neg hraw]
      set t := sanitizeKanjivgSvg raw with hts
      have hstep : sanitizeKanjivgSvg t = String.mk (trimChars t.data) := by
        simp only [sanitizeKanjivgSvg, if_neg ht]
        rw [replaceProlog_of_none h1, replaceDoctypeSubset_of_none h2,
          replaceDoctypePlain_of_none h2, stripLeadingComments_of_none h3]
      rw [hstep, hdata, trimChars_idem, ← hdata, stringMkData]

/-- C6 witness: the amended statement at a KanjiVG-shaped document. -/
theorem C6_witness :
    sanitizeKanjivgSvg (sanitizeKanjivgSvg
        "<?xml version=\"1.0\"?>\n<!DOCTYPE svg [\n<!ATTLIST g x CDATA #IMPLIED>\n]>\n<!-- c -->\n<svg>s</svg>")
      = sanitizeKanjivgSvg
        "<?xml version=\"1.0\"?>\n<!DOCTYPE svg [\n<!ATTLIST g x CDATA #IMPLIED>\n]>\n<!-- c -->\n<svg>s</svg>" :=
  (C6_thm "<?xml version=\"1.0\"?>\n<!DOCTYPE svg [\n<!ATTLIST g x CDATA #IMPLIED>\n]>\n<!-- c -->\n<svg>s</svg>"
    (by decide) (by decide) (by decide)).1

/-! ## C7 — derived codepoint hex and asset path -/

/-- Padding to five digits never truncates: the padded length is the
maximum of five and the original length. -/
theorem padStart5_length (s : String) : (padStart5 s).length = max 5 s.length := by
  have h : (padStart5 s).length
      = (List.replicate (5 - s.length) '0').length + s.data.length := by
    cases s
    simp [padStart5, String.length, String.append]
  rw [h]
  simp only [List.length_replicate]
  have : s.length = s.data.length := rfl
  omega

/-- The codepoint hex of a non-empty string is never empty. -/
theorem toCodepointHex_ne (ch : String) (h : ch ≠ "") : toCodepointHex ch ≠ "" := by
  rcases hd : ch.data with _ | ⟨c, rest⟩
  · exfalso
    apply h
    cases ch
    simp at hd
    rw [hd]
  · have hred : toCodepointHex ch = padStart5 (asciiLowerStr (natToHex c.toNat)) := by
      simp only [toCodepointHex, hd]
    rw [hred]
    intro heq
    have hlen := padStart5_length (asciiLowerStr (natToHex c.toNat))
    rw [heq] at hlen
    have h5 : 5 ≤ max 5 (asciiLowerStr (natToHex c.toNat)).length := Nat.le_max_left _ _
    rw [← hlen] at h5
    simp [String.length] at h5

/-- C7: when chu is non-empty and the input svg record carries no explicit
codepoint hex (and no explicit path), the normalized codepoint hex is
toCodepointHex of chu — the first code point in lowercase hex, left-padded
with zeros to 5 digits, never truncated (the padded length is
max 5 (hex length) and the hex digits are kept as a suffix) — and the
derived asset path is resources/kanji_svg/(hex).svg; in particular the
character U+65E5 derives the path resources/kanji_svg/065e5.svg. -/
theorem C7_thm (raw : JSValue) (now : String)
    (hchu : jsToString (jsOrElse (getField (jsOrElse raw (.obj [])) "chu") (.str "")) ≠ "")
    (hhex : isNullish (getField (jsOrElse (getField (jsOrElse raw (.obj [])) "svg") (.obj []))
        "codepoint_hex") = true)
    (hpath : isNullish (getField (jsOrElse (getField (jsOrElse raw (.obj [])) "svg") (.obj []))
        "path") = true) :
    (normalizeKanjiItem raw now).svg.codepoint_hex
      = .str (toCodepointHex
          (jsToString (jsOrElse (getField (jsOrElse raw (.obj [])) "chu") (.str ""))))
    ∧ (normalizeKanjiItem raw now).svg.path
      = "resources/kanji_svg/"
        ++ toCodepointHex
            (jsToString (jsOrElse (getField (jsOrElse raw (.obj [])) "chu") (.str "")))
        ++ ".svg"
    ∧ (∀ s : String, (padStart5 s).length = max 5 s.length
        ∧ ∃ pre, padStart5 s = pre ++ s)
    ∧ (normalizeKanjiItem (.obj [("chu", .str "日")]) now).svg.path
      = "resources/kanji_svg/065e5.svg" := by
  have hcp : (normalizeKanjiItem raw now).svg.codepoint_hex
      = .str (toCodepointHex
          (jsToString (jsOrElse (getField (jsOrElse raw (.obj [])) "chu") (.str "")))) := by
    rw [normalize_codepointHex, jsOrElse_of_nullish _ hhex, if_pos hchu]
  have hne := toCodepointHex_ne _ hchu
  refine ⟨hcp, ?_, fun s => ⟨padStart5_length s, ⟨_, rfl⟩⟩, rfl⟩
  rw [normalize_path, jsOrElse_of_nullish _ hpath, hcp]
  simp [jsTruthy, jsToString, hne]

/-- C7 witness: the U+65E5 record with no explicit hex or path. -/
theorem C7_witness :
    (normalizeKanjiItem (.obj [("chu", .str "日")]) "t").svg.codepoint_hex
      = .str (toCodepointHex "日")
    ∧ (normalizeKanjiItem (.obj [("chu", .str "日")]) "t").svg.path
      = "resources/kanji_svg/065e5.svg" := by
  have h := C7_thm (.obj [("chu", .str "日")]) "t" (by decide) (by decide) (by decide)
  exact ⟨h.1, h.2.2.2⟩

/-! ## C5 — normalization is idempotent -/

/-- Re-normalizing a canonical example is the identity. -/
theorem normExample_roundtrip (e : ExampleV) : normExample (exampleToJS e) = e := by
  cases e
  rfl

/-- Re-normalizing a canonical reading is the identity. -/
theorem normReading_roundtrip (r : Reading) : normReading (readingToJS r) = r := by
  obtain ⟨am, ng, vd⟩ := r
  have h : (vd.map exampleToJS).map normExample = vd := by
    induction vd with
    | nil => rfl
    | cons x xs ih => simp [normExample_roundtrip x, ih]
  calc normReading (readingToJS ⟨am, ng, vd⟩)
      = ⟨am, ng, (vd.map exampleToJS).map normExample⟩ := rfl
    _ = ⟨am, ng, vd⟩ := by rw [h]

/-- Re-normalizing a canonical reading list is the identity. -/
theorem readings_roundtrip (l : List Reading) :
    (l.map readingToJS).map normReading = l := by
  induction l with
  | nil => rfl
  | cons x xs ih =>
    simp only [List.map_cons]
    rw [normReading_roundtrip x, ih]

/-- Re-normalizing any canonical Entry whose stored codepoint hex is
non-nullish (true of every normalizer output) reproduces the Entry
exactly — including its updatedAt, since the input's updatedAt takes
precedence over the fresh timestamp. -/
theorem normalize_entryToJS (e : Entry) (h : isNullish e.svg.codepoint_hex = false)
    (now' : String) : normalizeKanjiItem (entryToJS e) now' = e := by
  obtain ⟨chu, hv, ng, onl, kunl, bo, ⟨cph, path, exb⟩, upd⟩ := e
  have hon : (onl.map readingToJS).map normReading = onl := readings_roundtrip onl
  have hkun : (kunl.map readingToJS).map normReading = kunl := readings_roundtrip kunl
  have hexb : (if jsStrictEqFalse (.bool exb) then false else true) = exb := by
    cases exb <;> rfl
  calc normalizeKanjiItem (entryToJS ⟨chu, hv, ng, onl, kunl, bo, ⟨cph, path, exb⟩, upd⟩) now'
      = ⟨chu, hv, ng, (onl.map readingToJS).map normReading,
          (kunl.map readingToJS).map normReading, bo,
          ⟨jsOrElse cph (.str (if chu ≠ "" then toCodepointHex chu else "")), path,
            if jsStrictEqFalse (.bool exb) then false else true⟩, upd⟩ := rfl
    _ = ⟨chu, hv, ng, onl, kunl, bo, ⟨cph, path, exb⟩, upd⟩ := by
        rw [hon, hkun, hexb, jsOrElse_of_not_nullish _ h]

/-- C5: normalization is idempotent — feeding the Entry produced by a
first normalizeKanjiItem back through normalizeKanjiItem (at any later
timestamp) reproduces the same Entry on every field; updatedAt in
particular is kept, so the result agrees a fortiori on every field other
than updatedAt. -/
theorem C5_thm (raw : JSValue) (now now' : String) :
    normalizeKanjiItem (entryToJS (normalizeKanjiItem raw now)) now'
      = normalizeKanjiItem raw now := by
  apply normalize_entryToJS
  rw [normalize_codepointHex]
  exact isNullish_jsOrElse_str _ _

end Kanji
